import Mathlib

/-!
Verification of the natural-language specification of `autogen/generator.py`
(the binding-method generator of the cypari2 repository) against the code.

The file has two parts: first the shallow embedding of the generator
(definitions), then the theorems settling the claims.

Only `autogen/generator.py` is among the sources.  Its collaborators
(`autogen/parser.py` providing `parse_prototype`, `autogen/args.py` providing
the argument/return classes, `autogen/doc.py` providing `get_rest_doc`) are
not; where the embedding needs them they are modelled from the spec, and each
such definition says so in its doc comment.
-/

/-! ### Eligibility filter (generator.py lines 54-110) -/

/-- ASCII letter, the class `[A-Za-z]` of the regex in `generator.py`. -/
def isAsciiAlpha (c : Char) : Bool :=
  (decide ('A' ≤ c) && decide (c ≤ 'Z')) || (decide ('a' ≤ c) && decide (c ≤ 'z'))

/-- The class `[A-Za-z0-9_]` of the regex in `generator.py`. -/
def isWordChar (c : Char) : Bool :=
  isAsciiAlpha c || (decide ('0' ≤ c) && decide (c ≤ '9')) || decide (c = '_')

/--
`function_re.match(s)` for `function_re = re.compile(r"^[A-Za-z][A-Za-z0-9_]*$")`
with Python `re` semantics: `re.match` anchors at the start of the string, and
`$` (without `re.MULTILINE`) matches at the end of the string or just before a
newline that ends the string.  Since no word character is a newline, the greedy
star leaves exactly the maximal word-character run, so the match succeeds iff
what follows that run is empty or a single final newline.
-/
def function_re_match (s : String) : Bool :=
  match s.data with
  | [] => false
  | c :: rest =>
    isAsciiAlpha c &&
      (let t := rest.dropWhile isWordChar
       t.isEmpty || t == ['\n'])

/-- The fixed deny-list `function_blacklist` of `generator.py`. -/
def function_blacklist : List String :=
  ["O", "alias", "listcreate", "allocatemem", "global", "inline", "uninline",
   "local", "my"]

/--
`PariFunctionGenerator.can_handle_function(self, function, cname="", **kwds)`.
`cname` is accepted and ignored, exactly as the Python method does.  The
`class` and `section` entries of `**kwds` are optional, hence `Option String`;
`kwds.get(key, "unknown")` becomes `Option.getD · "unknown"`.
-/
def can_handle_function (function cname : String)
    (kwClass kwSection : Option String) : Bool :=
  if function ∈ function_blacklist then
    -- Blacklist specific troublesome functions
    false
  else if !(function_re_match function) then
    -- Not a legal function name, like "!_"
    false
  else
    let cls := kwClass.getD "unknown"
    let sec := kwSection.getD "unknown"
    if cls ≠ "basic" then
      -- Different class: probably something technical or specific to gp or gp2c
      false
    else if sec = "programming/control" then
      -- Skip if, return, break, ...
      false
    else
      true

/--
The identifier pattern exactly as claim C2 words it: letters, digits and
underscore only, starting with a letter.
-/
def spec_identifier (s : String) : Bool :=
  match s.data with
  | [] => false
  | c :: rest => isAsciiAlpha c && rest.all isWordChar

/--
The tail of the identifier pattern as the code actually checks it (amended
claim C2): word characters up to the end, optionally ending in exactly one
final newline.
-/
def relaxedTail : List Char → Bool
  | [] => true
  | c :: rest => if c = '\n' ∧ rest = [] then true else isWordChar c && relaxedTail rest

/--
The identifier pattern of the amended claim C2: the claimed pattern, except
that (matching Python `$` semantics) exactly one trailing newline after the
identifier is tolerated.
-/
def spec_identifier_relaxed (s : String) : Bool :=
  match s.data with
  | [] => false
  | c :: rest => isAsciiAlpha c && relaxedTail rest

/-! ### Argument / return model and prototype-parser interface -/

/--
Modelled from the spec: the closed set of argument kinds of the
Argument/Return type model (`autogen/args.py` is not among the sources).
`nativeValue` is the native-handle (GEN) kind, `instanceContext` the synthetic
leading context argument.
-/
inductive ArgKind where
  | nativeValue
  | smallInt
  | unsignedInt
  | charString
  | variableRef
  | instanceContext
  | precision
deriving DecidableEq

/--
Modelled from the spec: an Argument object of `autogen/args.py` (not among the
sources), reduced to the pure code-generation operations the spec specifies:
declared native type, parameter-list fragment, call fragment,
deprecation-warning fragment (a function of the function name) and conversion
statements, plus the kind tag.  The operations are plain data fields because
their computation lives in the missing `args.py`.
-/
structure PariArg where
  kind : ArgKind
  ctype : String
  prototype_code : String
  call_code : String
  deprecation_warning_code : String → String
  convert_code : String

/--
Modelled from the spec: a Return object of `autogen/args.py` (not among the
sources).  Its `assignFragment` operation "wraps a call expression with the
correct result-capture statement", hence a prefix and a suffix around the call
expression; `return_code` is the final return/clear statement.
-/
structure PariRet where
  ctype : String
  assignPre : String
  assignPost : String
  return_code : String

/--
Modelled from the spec: `ret.assign_code(callExpr)` wraps the call expression
with the result-capture statement.
-/
def PariRet.assign_code (ret : PariRet) (callExpr : String) : String :=
  ret.assignPre ++ callExpr ++ ret.assignPost

/--
Modelled from the spec: `PariInstanceArgument()`, the synthetic leading
context argument (`self`) injected when generating the instance-method
family.  Its parameter fragment is the `self` parameter; it contributes no
conversion statement and no warning.
-/
def pariInstanceArgument : PariArg :=
  { kind := ArgKind.instanceContext
    ctype := "GEN"
    prototype_code := "self"
    call_code := "self"
    deprecation_warning_code := fun _ => ""
    convert_code := "" }

/--
Modelled from the spec: `parse_prototype(prototype, help, initial_args)` from
`autogen/parser.py` (not among the sources).  The grammar scan itself is
abstracted into `core`, a parameter of every theorem that needs it; the spec
fixes that a scan hitting an unimplemented type code raises
`NotImplementedError` / `UnsupportedPrototype` (here: `core` returns `none`)
and that when `leadingArgs` is non-empty those descriptors are prepended to
the scanned argument sequence.
-/
def parse_prototype (core : String → String → Option (List PariArg × PariRet))
    (prototype help : String) (leadingArgs : List PariArg) :
    Option (List PariArg × PariRet) :=
  (core prototype help).map (fun p => (leadingArgs ++ p.1, p.2))

/--
An input record of the descriptor catalog, restricted to the keys
`generator.py` consumes: `function`, `cname`, `prototype` (default `""`),
`help` (default `""`), `obsolete` (default `None`), and the optional `class`
and `section` tags.  `class` and `section` are Lean keywords, hence the field
names `classTag` and `sectionTag`.
-/
structure PariDescRecord where
  function : String
  cname : String
  prototype : String
  help : String
  obsolete : Option String
  classTag : Option String
  sectionTag : Option String
deriving DecidableEq

/-- Python truthiness of the `obsolete` value: `None` and `""` are falsy. -/
def pyTruthy : Option String → Bool
  | none => false
  | some s => !(s == "")

/-- Python `str()` of the `obsolete` value, as `str.format` renders it. -/
def pyStr : Option String → String
  | none => "None"
  | some s => s

/--
Character-level translation of `doc.replace("\n", "\n        ")` in
`write_method`: every newline gains an eight-space indent.  (Replacing a
single-character pattern is unambiguous, so this recursion is exactly
Python's `str.replace`.)
-/
def indentChars : List Char → List Char
  | [] => []
  | c :: rest =>
    if c = '\n' then '\n' :: ("        ".data ++ indentChars rest)
    else c :: indentChars rest

/-- `doc.replace("\n", "\n        ")` on strings. -/
def indentDoc (doc : String) : String := String.mk (indentChars doc.data)

/-! ### The generator's emitters (generator.py lines 204-288) -/

/--
`PariFunctionGenerator.write_declaration` (generator.py lines 225-240),
returning the text written to the declaration stream, including the newline
`print` appends.
-/
def write_declaration (cname : String) (args : List PariArg) (ret : PariRet) :
    String :=
  "    " ++ ret.ctype ++ " " ++ cname ++ "("
    ++ String.intercalate ", " (args.map PariArg.ctype) ++ ")" ++ "\n"

/--
`PariFunctionGenerator.write_method` (generator.py lines 242-288), returning
the text written to the stream, including the newline `print` appends.  The
Python code assembles a template with `{placeholder}` fields and applies
`str.format` once at the end; since the template fragments contributed by
`args.py` contain no brace characters, that single-pass substitution
coincides with splicing the values directly where the template names them,
which is how this embedding writes it.
-/
def write_method (function cname : String) (args : List PariArg) (ret : PariRet)
    (cargs : List PariArg) (doc : String) (obsolete : Option String) : String :=
  let doc := indentDoc doc     -- doc.replace("\n", "\n        "): indent doc
  let protoargs := String.intercalate ", " (args.map PariArg.prototype_code)
  let callargs := String.intercalate ", " (cargs.map PariArg.call_code)
  let s := "    def " ++ function ++ "(" ++ protoargs ++ "):\n"
  -- Use triple single quotes for the docstring, as the source does
  let s := if doc ≠ "" then
      s ++ "        r\x27\x27\x27\n        " ++ doc ++ "\n        \x27\x27\x27\n"
    else s
  -- Warning for obsolete functions
  let s := if pyTruthy obsolete then
      s ++ "        from warnings import warn\n"
        ++ "        warn(\x27the PARI/GP function " ++ function
        ++ " is obsolete (" ++ pyStr obsolete ++ ")\x27, DeprecationWarning)\n"
    else s
  -- Warning for undocumented arguments
  let s := s ++ String.join (args.map (fun a => a.deprecation_warning_code function))
  let s := s ++ String.join (args.map PariArg.convert_code)
  let s := s ++ "        sig_on()\n"
  let s := s ++ PariRet.assign_code ret (cname ++ "(" ++ callargs ++ ")")
  let s := s ++ ret.return_code
  s ++ "\n"

/--
`PariFunctionGenerator.handle_pari_function` (generator.py lines 112-223) as
the triple of texts it writes to the (declaration, Gen, Pari) streams.
`core` abstracts the prototype scanner of the missing `parser.py`; `getDoc`
abstracts `get_rest_doc` of the missing `doc.py`.  A `none` parse is the
`NotImplementedError` the Python code catches, upon which it returns having
written nothing.  The second parse of the same prototype cannot fail when the
first succeeded; that branch only mirrors where the streams stand at that
point of the Python code.
-/
def handle_pari_function (core : String → String → Option (List PariArg × PariRet))
    (getDoc : String → String) (r : PariDescRecord) : String × String × String :=
  match parse_prototype core r.prototype r.help [] with
  | none => ("", "", "")       -- except NotImplementedError: skip the function
  | some (args, ret) =>
    let doc := getDoc r.function
    let decl := write_declaration r.cname args ret
    let genOut :=
      match args with
      | a :: _ =>
        -- if len(args) > 0 and isinstance(args[0], PariArgumentGEN)
        if a.kind = ArgKind.nativeValue then
          write_method r.function r.cname args ret args doc r.obsolete
        else ""
      | [] => ""
    -- In any case, write a method of the Pari class:
    -- parse again with an extra "self" argument.
    match parse_prototype core r.prototype r.help [pariInstanceArgument] with
    | none => (decl, genOut, "")
    | some (args2, ret2) =>
      (decl, genOut,
        write_method r.function r.cname args2 ret2 (args2.drop 1) doc r.obsolete)

/-! ### The spec's method template, block by block -/

/-- The signature line of the spec's method template. -/
def spec_signature_line (function : String) (args : List PariArg) : String :=
  "    def " ++ function ++ "("
    ++ String.intercalate ", " (args.map PariArg.prototype_code) ++ "):\n"

/--
The optional docstring block of the spec's method template: present iff the
documentation string is non-empty, with the documentation text embedded
indented.
-/
def spec_docstring_block (doc : String) : String :=
  if doc = "" then ""
  else "        r\x27\x27\x27\n        " ++ indentDoc doc ++ "\n        \x27\x27\x27\n"

/--
The optional deprecation-warning block of the spec's method template: present
iff the record carries a non-degenerate obsolescence marker; its message
embeds the marker and the function name verbatim.
-/
def spec_deprecation_block (function : String) (obsolete : Option String) :
    String :=
  match obsolete with
  | none => ""
  | some m =>
    if m = "" then ""
    else "        from warnings import warn\n"
      ++ "        warn(\x27the PARI/GP function " ++ function
      ++ " is obsolete (" ++ m ++ ")\x27, DeprecationWarning)\n"

/-- The per-argument undocumented-parameter warnings of the spec's template. -/
def spec_warning_block (function : String) (args : List PariArg) : String :=
  String.join (args.map (fun a => a.deprecation_warning_code function))

/-- The per-argument conversion statements of the spec's template. -/
def spec_conversion_block (args : List PariArg) : String :=
  String.join (args.map PariArg.convert_code)

/-- The native call with result capture of the spec's template. -/
def spec_call_block (cname : String) (cargs : List PariArg) (ret : PariRet) :
    String :=
  PariRet.assign_code ret
    (cname ++ "(" ++ String.intercalate ", " (cargs.map PariArg.call_code) ++ ")")

/--
The whole fixed method template, in the order the spec states it: signature
line, docstring block, deprecation-warning block, undocumented-parameter
warnings, conversion statements, critical-section enter, native call with
result capture, return/clear statement (plus the newline `print` appends).
-/
def spec_method_template (function cname : String) (args : List PariArg)
    (ret : PariRet) (cargs : List PariArg) (doc : String)
    (obsolete : Option String) : String :=
  spec_signature_line function args
    ++ spec_docstring_block doc
    ++ spec_deprecation_block function obsolete
    ++ spec_warning_block function args
    ++ spec_conversion_block args
    ++ "        sig_on()\n"
    ++ spec_call_block cname cargs ret
    ++ ret.return_code
    ++ "\n"

/-! ### The orchestrator (generator.py lines 290-330) -/

/-- Acceptance of a whole record: `self.can_handle_function(**v)`. -/
def acceptsRecord (r : PariDescRecord) : Bool :=
  can_handle_function r.function r.cname r.classTag r.sectionTag

/--
The bodies the main loop of `__call__` appends to the three streams
(declaration, Gen, Pari), record by record in the given (already sorted)
order.  A rejected record contributes nothing to the artifacts; its
parenthesised console line is diagnostic output, not part of them.
-/
def processAll (core : String → String → Option (List PariArg × PariRet))
    (getDoc : String → String) :
    List PariDescRecord → String × String × String
  | [] => ("", "", "")
  | r :: L =>
    let rest := processAll core getDoc L
    if acceptsRecord r then
      let out := handle_pari_function core getDoc r
      (out.1 ++ rest.1, out.2.1 ++ rest.2.1, out.2.2 ++ rest.2.2)
    else rest

/--
The `have_plot_svg` flag computed by the main loop of `__call__`: it becomes
true when an accepted record is named `plothraw`.
-/
def plotFlag (L : List PariDescRecord) : Bool :=
  L.any (fun r => acceptsRecord r && (r.function == "plothraw"))

/-- Python's `format` rendering of a bool: `True` / `False`. -/
def pyBool (b : Bool) : String := if b then "True" else "False"

/-- The sort key relation of `sorted(D.values(), key=lambda d: d['function'])`. -/
def recordLE (a b : PariDescRecord) : Prop := a.function ≤ b.function

instance : DecidableRel recordLE :=
  fun a b => inferInstanceAs (Decidable (a.function ≤ b.function))

instance : IsTotal PariDescRecord recordLE :=
  ⟨fun a b => le_total a.function b.function⟩

instance : IsTrans PariDescRecord recordLE :=
  ⟨fun _ _ _ hab hbc => le_trans hab hbc⟩

/--
`sorted(D.values(), key=lambda d: d['function'])`.  The catalog is a mapping
keyed by function name, so the function names are distinct and any correct
sort produces the same list; insertion sort stands in for Python's stable
sort.
-/
def sortRecords (D : List PariDescRecord) : List PariDescRecord :=
  List.insertionSort recordLE D

/--
`gen_banner` of generator.py.  The embedded path
`os.path.relpath(__file__, os.getcwd())` depends on the environment and is
the parameter `relp`.
-/
def gen_banner (relp : String) : String :=
  "# This file is auto-generated by " ++ relp
    ++ "\n\ncdef class Gen_auto:\n    \"\"\"\n    Part of the :class:`Gen` class containing auto-generated functions.\n\n    This class is not meant to be used directly, use the derived class\n    :class:`Gen` instead.\n    \"\"\"\n"

/-- `instance_banner` of generator.py, with the same path parameter. -/
def instance_banner (relp : String) : String :=
  "# This file is auto-generated by " ++ relp
    ++ "\n\ncdef class Pari_auto:\n    \"\"\"\n    Part of the :class:`Pari` class containing auto-generated functions.\n\n    You must never use this class directly (in fact, Python may crash\n    if you do), use the derived class :class:`Pari` instead.\n    \"\"\"\n"

/-- `decl_banner` of generator.py; its embedded path is `__file__` (`filep`). -/
def decl_banner (filep : String) : String :=
  "# This file is auto-generated by " ++ filep
    ++ "\n\nfrom .types cimport *\n\ncdef extern from *:\n"

/-- The final contents of the three generated artifacts. -/
structure GenOutputs where
  genFile : String
  instanceFile : String
  declFile : String
deriving DecidableEq

/--
`PariFunctionGenerator.__call__` (generator.py lines 290-330) as the final
contents of the three artifacts: the records are sorted by function name,
each stream starts with its banner, the loop appends the per-record bodies,
and the instance stream ends with the `DEF HAVE_PLOT_SVG = ...` flag line.
`relp` and `filep` are the environment-dependent paths in the banners;
`read_pari_desc` is an external collaborator, so the record collection is the
argument `D`.
-/
def generatorCall (relp filep : String)
    (core : String → String → Option (List PariArg × PariRet))
    (getDoc : String → String) (D : List PariDescRecord) : GenOutputs :=
  let L := sortRecords D
  let bodies := processAll core getDoc L
  { genFile := gen_banner relp ++ bodies.2.1
    instanceFile := instance_banner relp ++ bodies.2.2
      ++ "DEF HAVE_PLOT_SVG = " ++ pyBool (plotFlag L)
    declFile := decl_banner filep ++ bodies.1 }

/-! ### The file-system trace of a run (claim C6) -/

/-- `self.gen_filename = os.path.join('cypari2', 'auto_gen.pxi')`. -/
def gen_filename : String := "cypari2/auto_gen.pxi"

/-- `self.instance_filename = os.path.join('cypari2', 'auto_instance.pxi')`. -/
def instance_filename : String := "cypari2/auto_instance.pxi"

/-- `self.decl_filename = os.path.join('cypari2', 'auto_paridecl.pxd')`. -/
def decl_filename : String := "cypari2/auto_paridecl.pxd"

/--
The file-system operations `__call__` performs: `io.open(path, 'w')`
(truncate/create), a write appending text, `close`, and `os.rename`.
-/
inductive FileEvent where
  | openTmp (path : String)
  | writeF (path : String) (content : String)
  | closeF (path : String)
  | renameF (src dst : String)
deriving DecidableEq

/-- A file system: contents by path. -/
def FileSys : Type := String → Option String

/--
Effect of one event: `openTmp` truncates/creates, `writeF` appends, `closeF`
changes no contents, `renameF` moves the contents of `src` to `dst`.
-/
def applyEvent (fs : FileSys) : FileEvent → FileSys
  | FileEvent.openTmp p => fun q => if q = p then some "" else fs q
  | FileEvent.writeF p s =>
      fun q => if q = p then some ((fs p).getD "" ++ s) else fs q
  | FileEvent.closeF _ => fs
  | FileEvent.renameF a b =>
      fun q => if q = b then fs a else if q = a then none else fs q

/-- Effect of a sequence of events. -/
def applyTrace (fs : FileSys) (es : List FileEvent) : FileSys :=
  es.foldl applyEvent fs

/-- Whether an event is an `os.rename`. -/
def FileEvent.isRename : FileEvent → Bool
  | FileEvent.renameF _ _ => true
  | _ => false

/-- Whether an event can change the file at `f`. -/
def touches (e : FileEvent) (f : String) : Bool :=
  match e with
  | FileEvent.openTmp p => p == f
  | FileEvent.writeF p _ => p == f
  | FileEvent.closeF _ => false
  | FileEvent.renameF a b => a == f || b == f

/--
The writes one loop iteration of `__call__` performs, in the order
`handle_pari_function` performs them (declaration, then Gen, then Pari
stream).  A rejected record writes nothing; a skipped (unsupported-prototype)
record is modelled by its three empty writes, which change no file.
-/
def recordEvents (core : String → String → Option (List PariArg × PariRet))
    (getDoc : String → String) (r : PariDescRecord) : List FileEvent :=
  if acceptsRecord r then
    [FileEvent.writeF (decl_filename ++ ".tmp")
        (handle_pari_function core getDoc r).1,
     FileEvent.writeF (gen_filename ++ ".tmp")
        (handle_pari_function core getDoc r).2.1,
     FileEvent.writeF (instance_filename ++ ".tmp")
        (handle_pari_function core getDoc r).2.2]
  else []

/-- The writes of the whole main loop, in record order. -/
def loopEvents (core : String → String → Option (List PariArg × PariRet))
    (getDoc : String → String) : List PariDescRecord → List FileEvent
  | [] => []
  | r :: L => recordEvents core getDoc r ++ loopEvents core getDoc L

/-- The opening phase of `__call__`: open each `.tmp` file and write its
banner, in source order (gen, instance, decl). -/
def callTraceSetup (relp filep : String) : List FileEvent :=
  [FileEvent.openTmp (gen_filename ++ ".tmp"),
   FileEvent.writeF (gen_filename ++ ".tmp") (gen_banner relp),
   FileEvent.openTmp (instance_filename ++ ".tmp"),
   FileEvent.writeF (instance_filename ++ ".tmp") (instance_banner relp),
   FileEvent.openTmp (decl_filename ++ ".tmp"),
   FileEvent.writeF (decl_filename ++ ".tmp") (decl_banner filep)]

/-- The closing phase of `__call__` before the renames: the
`HAVE_PLOT_SVG` flag write on the instance stream, then the three closes. -/
def callTraceFinish (flagText : String) : List FileEvent :=
  [FileEvent.writeF (instance_filename ++ ".tmp") flagText,
   FileEvent.closeF (gen_filename ++ ".tmp"),
   FileEvent.closeF (instance_filename ++ ".tmp"),
   FileEvent.closeF (decl_filename ++ ".tmp")]

/-- The final renames of `__call__`, in source order. -/
def callTraceRenames : List FileEvent :=
  [FileEvent.renameF (gen_filename ++ ".tmp") gen_filename,
   FileEvent.renameF (instance_filename ++ ".tmp") instance_filename,
   FileEvent.renameF (decl_filename ++ ".tmp") decl_filename]

/--
The full event trace of `PariFunctionGenerator.__call__` (generator.py lines
290-330), events in exactly the order the Python code performs them: open the
three temporaries and write the banners, run the loop, write the flag line,
close all three files, and only then rename each temporary into its final
place.
-/
def callTrace (relp filep : String)
    (core : String → String → Option (List PariArg × PariRet))
    (getDoc : String → String) (D : List PariDescRecord) : List FileEvent :=
  callTraceSetup relp filep
    ++ loopEvents core getDoc (sortRecords D)
    ++ callTraceFinish ("DEF HAVE_PLOT_SVG = " ++ pyBool (plotFlag (sortRecords D)))
    ++ callTraceRenames

/-! ### Concrete sample values used by the witnesses -/

/-- A concrete native-handle argument, shaped like the `P` argument of the
`bnfinit` example in the source's doctest. -/
def sampleArgGEN : PariArg :=
  { kind := ArgKind.nativeValue
    ctype := "GEN"
    prototype_code := "P"
    call_code := "_P"
    deprecation_warning_code := fun _ => ""
    convert_code := "        cdef GEN _P = P.g\n" }

/-- A concrete handle-typed return, shaped like the source's doctests. -/
def sampleRet : PariRet :=
  { ctype := "GEN"
    assignPre := "        cdef GEN _ret = "
    assignPost := "\n"
    return_code := "        return new_gen(_ret)\n" }

/-- A concrete prototype scanner that accepts everything as `GEN -> GEN`. -/
def sampleCore : String → String → Option (List PariArg × PariRet) :=
  fun _ _ => some ([sampleArgGEN], sampleRet)

/-- A concrete prototype scanner that rejects every prototype
(`NotImplementedError`). -/
def failCore : String → String → Option (List PariArg × PariRet) :=
  fun _ _ => none

/-- A concrete documentation source returning no documentation. -/
def emptyDoc : String → String := fun _ => ""

/-- A concrete eligible record, shaped like the source's `bnfinit` doctest. -/
def sampleRecord : PariDescRecord :=
  { function := "bnfinit"
    cname := "bnfinit0"
    prototype := "G"
    help := ""
    obsolete := none
    classTag := some "basic"
    sectionTag := some "number_fields" }

/-- A second concrete eligible record with a different function name. -/
def sampleRecord2 : PariDescRecord :=
  { function := "addprimes"
    cname := "addprimes"
    prototype := "G"
    help := ""
    obsolete := none
    classTag := some "basic"
    sectionTag := some "general" }

/-! ### Theorems about the eligibility filter -/

theorem newline_not_word : isWordChar '\n' = false := by decide

theorem relaxedTail_eq (l : List Char) :
    ((l.dropWhile isWordChar).isEmpty || (l.dropWhile isWordChar) == ['\n'])
      = relaxedTail l := by
  induction l with
  | nil => rfl
  | cons c rest ih =>
    by_cases hc : isWordChar c = true
    · have hcn : ¬(c = '\n' ∧ rest = []) := by
        rintro ⟨h1, h2⟩
        rw [h1] at hc
        exact absurd hc (by decide)
      rw [List.dropWhile_cons, if_pos hc, relaxedTail, if_neg hcn, hc,
        Bool.true_and, ih]
    · have hc' : isWordChar c = false := by simpa using hc
      rw [List.dropWhile_cons, if_neg (by simp [hc']), relaxedTail]
      by_cases hline : c = '\n' ∧ rest = []
      · obtain ⟨h1, h2⟩ := hline
        subst h1; subst h2
        rfl
      · rw [if_neg hline, hc', Bool.false_and]
        simp only [List.isEmpty_cons, Bool.false_or]
        cases rest with
        | nil =>
          have hcne : ¬(c = '\n') := fun h => hline ⟨h, rfl⟩
          simp [hcne]
        | cons d rest2 => simp

theorem function_re_match_eq_relaxed (s : String) :
    function_re_match s = spec_identifier_relaxed s := by
  rw [function_re_match, spec_identifier_relaxed]
  cases s.data with
  | nil => rfl
  | cons c rest =>
    dsimp only
    rw [relaxedTail_eq]

/--
Claim C2, counterexample: the claimed biconditional fails at the concrete name
consisting of the letter a followed by a newline.  The code accepts it (the
Python regex anchor tolerates one trailing newline) while the identifier
pattern of the claim (letters/digits/underscore, starting with a letter)
rejects it.
-/
theorem claim_C2_counterexample :
    ¬ (can_handle_function "a\n" "" (some "basic") (some "number_fields") = true ↔
       ("a\n" ∉ function_blacklist ∧ spec_identifier "a\n" = true ∧
        "basic" = "basic" ∧ "number_fields" ≠ "programming/control")) := by
  decide

/--
Claim C2, amended: for all string inputs, `can_handle_function` returns true
iff the name is not in the deny-list, the name matches the identifier pattern
with at most one trailing newline tolerated (Python regex end-anchor
semantics), the class tag equals "basic", and the section tag is not
"programming/control".  Being a total Lean function, it never raises.
-/
theorem claim_C2 (function cname cls sec : String) :
    can_handle_function function cname (some cls) (some sec)
      = (!(decide (function ∈ function_blacklist))
          && spec_identifier_relaxed function
          && (cls == "basic") && !(sec == "programming/control")) := by
  rw [can_handle_function, ← function_re_match_eq_relaxed]
  by_cases h1 : function ∈ function_blacklist
  · simp [h1]
  · by_cases h2 : function_re_match function = true
    · by_cases h3 : cls = "basic"
      · by_cases h4 : sec = "programming/control"
        · simp [h1, h2, h3, h4]
        · simp [h1, h2, h3, h4]
      · simp [h1, h2, h3]
    · have h2' : function_re_match function = false := by
        simpa using h2
      simp [h1, h2']

/--
Claim C10, counterexample: a record whose `section` key is absent but whose
class tag is "basic" is accepted, contradicting the claim that every record
missing its `class` or `section` key is rejected.
-/
theorem claim_C10_counterexample :
    can_handle_function "bnfinit" "bnfinit0" (some "basic") none = true := by
  decide

/--
Claim C10, amended: an absent `class` or `section` key is substituted by the
default "unknown" and the predicate never raises; an absent `class` key forces
rejection (a record can never be accepted while missing its class tag), while
an absent `section` key merely behaves like the section tag "unknown", which
does not by itself cause rejection.
-/
theorem claim_C10 (function cname : String) :
    (∀ sec, can_handle_function function cname none sec = false) ∧
    (∀ sec, can_handle_function function cname none sec
        = can_handle_function function cname (some "unknown") sec) ∧
    (∀ cls, can_handle_function function cname cls none
        = can_handle_function function cname cls (some "unknown")) := by
  refine ⟨fun sec => ?_, fun sec => rfl, fun cls => rfl⟩
  rw [can_handle_function]
  by_cases h1 : function ∈ function_blacklist
  · simp [h1]
  · by_cases h2 : function_re_match function = true
    · simp [h1, h2]
    · have h2' : function_re_match function = false := by
        simpa using h2
      simp [h1, h2']

/-! ### String helpers -/

theorem str_assoc (a b c : String) : a ++ b ++ c = a ++ (b ++ c) := by
  apply String.ext
  simp [String.data_append]

theorem str_append_empty (s : String) : s ++ "" = s := by
  apply String.ext
  rw [String.data_append]
  show s.data ++ [] = s.data
  simp

theorem str_empty_append (s : String) : "" ++ s = s := by
  apply String.ext
  rw [String.data_append]
  show [] ++ s.data = s.data
  simp

theorem str_append_newline_ne_empty (s : String) : s ++ "\n" ≠ "" := by
  intro h
  have h2 := congrArg String.data h
  rw [String.data_append] at h2
  have h3 : s.data ++ "\n".data = [] := h2
  have h4 := List.append_eq_nil.mp h3
  exact absurd h4.2 (by decide)

theorem indentDoc_empty : indentDoc "" = "" := rfl

theorem indentChars_nil_iff (l : List Char) : indentChars l = [] ↔ l = [] := by
  cases l with
  | nil => simp [indentChars]
  | cons c rest =>
    rw [indentChars]
    by_cases h : c = '\n' <;> simp [h]

theorem indentDoc_eq_empty_iff (doc : String) : indentDoc doc = "" ↔ doc = "" := by
  constructor
  · intro h
    have h2 : indentChars doc.data = [] := by
      have h3 := congrArg String.data h
      simpa [indentDoc] using h3
    have h4 : doc.data = [] := (indentChars_nil_iff _).mp h2
    exact String.ext h4
  · intro h
    subst h
    rfl

/-! ### The method emitter follows the template -/

theorem write_method_ne_empty (function cname : String) (args : List PariArg)
    (ret : PariRet) (cargs : List PariArg) (doc : String)
    (obsolete : Option String) :
    write_method function cname args ret cargs doc obsolete ≠ "" := by
  rw [write_method]
  exact str_append_newline_ne_empty _

theorem write_method_eq_template (function cname : String) (args : List PariArg)
    (ret : PariRet) (cargs : List PariArg) (doc : String)
    (obsolete : Option String) :
    write_method function cname args ret cargs doc obsolete
      = spec_method_template function cname args ret cargs doc obsolete := by
  by_cases hdoc : doc = ""
  · subst hdoc
    cases obsolete with
    | none =>
      simp [write_method, spec_method_template, spec_signature_line,
        spec_docstring_block, spec_deprecation_block, spec_warning_block,
        spec_conversion_block, spec_call_block, pyTruthy, pyStr,
        indentDoc_empty, str_append_empty, str_empty_append, str_assoc,
        -String.reduceAppend]
    | some m =>
      by_cases hm : m = ""
      · subst hm
        simp [write_method, spec_method_template, spec_signature_line,
          spec_docstring_block, spec_deprecation_block, spec_warning_block,
          spec_conversion_block, spec_call_block, pyTruthy, pyStr,
          indentDoc_empty, str_append_empty, str_empty_append, str_assoc,
        -String.reduceAppend]
      · simp [write_method, spec_method_template, spec_signature_line,
          spec_docstring_block, spec_deprecation_block, spec_warning_block,
          spec_conversion_block, spec_call_block, pyTruthy, pyStr, hm,
          indentDoc_empty, str_append_empty, str_empty_append, str_assoc,
        -String.reduceAppend]
  · have hidoc : indentDoc doc ≠ "" := fun hh =>
      hdoc ((indentDoc_eq_empty_iff doc).mp hh)
    cases obsolete with
    | none =>
      simp [write_method, spec_method_template, spec_signature_line,
        spec_docstring_block, spec_deprecation_block, spec_warning_block,
        spec_conversion_block, spec_call_block, pyTruthy, pyStr, hdoc, hidoc,
        str_append_empty, str_empty_append, str_assoc, -String.reduceAppend]
    | some m =>
      by_cases hm : m = ""
      · subst hm
        simp [write_method, spec_method_template, spec_signature_line,
          spec_docstring_block, spec_deprecation_block, spec_warning_block,
          spec_conversion_block, spec_call_block, pyTruthy, pyStr, hdoc, hidoc,
          str_append_empty, str_empty_append, str_assoc, -String.reduceAppend]
      · simp [write_method, spec_method_template, spec_signature_line,
          spec_docstring_block, spec_deprecation_block, spec_warning_block,
          spec_conversion_block, spec_call_block, pyTruthy, pyStr, hdoc, hidoc,
          hm, str_append_empty, str_empty_append, str_assoc, -String.reduceAppend]

theorem str_append_ne_empty_left (s t : String) (h : s ≠ "") : s ++ t ≠ "" := by
  intro hh
  have h2 := congrArg String.data hh
  rw [String.data_append] at h2
  have h3 : s.data ++ t.data = [] := h2
  have h4 := List.append_eq_nil.mp h3
  exact h (String.ext h4.1)

/--
Claim C4: every method emitted by `write_method` follows the fixed textual
template in order — signature line, then a docstring block only when the
documentation string is non-empty (with the documentation text embedded
indented), then the deprecation-warning block only when the record is
obsolete, then per-argument undocumented-parameter warnings, then
per-argument conversion statements, then the critical-section enter
(`sig_on`), then the native call with result capture, then the return/clear
statement.
-/
theorem claim_C4 (function cname : String) (args : List PariArg) (ret : PariRet)
    (cargs : List PariArg) (doc : String) (obsolete : Option String) :
    write_method function cname args ret cargs doc obsolete
      = spec_method_template function cname args ret cargs doc obsolete ∧
    (spec_docstring_block doc = "" ↔ doc = "") := by
  refine ⟨write_method_eq_template function cname args ret cargs doc obsolete, ?_⟩
  constructor
  · intro h
    by_contra hdoc
    rw [spec_docstring_block, if_neg hdoc] at h
    exact str_append_ne_empty_left _ _
      (str_append_ne_empty_left _ _ (by decide)) h
  · intro h
    subst h
    rfl

/--
Claim C5: for every record carrying a (non-degenerate) obsolescence marker,
each emitted method's first statements raise a deprecation warning whose
message embeds the marker string verbatim together with the function name,
positioned after the signature and docstring (which contain no statements)
and before any argument conversion statement and before the native call.
-/
theorem claim_C5 (function cname : String) (args : List PariArg) (ret : PariRet)
    (cargs : List PariArg) (doc m : String) (hm : m ≠ "") :
    write_method function cname args ret cargs doc (some m)
      = spec_signature_line function args
        ++ spec_docstring_block doc
        ++ ("        from warnings import warn\n"
            ++ "        warn(\x27the PARI/GP function " ++ function
            ++ " is obsolete (" ++ m ++ ")\x27, DeprecationWarning)\n")
        ++ spec_warning_block function args
        ++ spec_conversion_block args
        ++ "        sig_on()\n"
        ++ spec_call_block cname cargs ret
        ++ ret.return_code
        ++ "\n" := by
  rw [write_method_eq_template, spec_method_template]
  simp only [spec_deprecation_block]
  rw [if_neg hm]

/-- Claim C5, witness at the `bernvec` instance of the source's doctest. -/
theorem claim_C5_witness :
    ("2007-03-30" : String) ≠ "" ∧
    write_method "bernvec" "bernvec" [] sampleRet [] "" (some "2007-03-30")
      = spec_signature_line "bernvec" []
        ++ spec_docstring_block ""
        ++ ("        from warnings import warn\n"
            ++ "        warn(\x27the PARI/GP function " ++ "bernvec"
            ++ " is obsolete (" ++ "2007-03-30" ++ ")\x27, DeprecationWarning)\n")
        ++ spec_warning_block "bernvec" []
        ++ spec_conversion_block []
        ++ "        sig_on()\n"
        ++ spec_call_block "bernvec" [] sampleRet
        ++ sampleRet.return_code
        ++ "\n" :=
  ⟨by decide, claim_C5 "bernvec" "bernvec" [] sampleRet [] "" "2007-03-30" (by decide)⟩

/-! ### The dispatcher -/

theorem handle_pari_function_eq_nil
    (core : String → String → Option (List PariArg × PariRet))
    (getDoc : String → String) (r : PariDescRecord)
    (ret : PariRet) (h : core r.prototype r.help = some ([], ret)) :
    handle_pari_function core getDoc r
      = (write_declaration r.cname [] ret, "",
         write_method r.function r.cname [pariInstanceArgument] ret []
           (getDoc r.function) r.obsolete) := by
  rw [handle_pari_function]
  simp [parse_prototype, h]

theorem handle_pari_function_eq_cons
    (core : String → String → Option (List PariArg × PariRet))
    (getDoc : String → String) (r : PariDescRecord) (a : PariArg)
    (t : List PariArg) (ret : PariRet)
    (h : core r.prototype r.help = some (a :: t, ret)) :
    handle_pari_function core getDoc r
      = (write_declaration r.cname (a :: t) ret,
         (if a.kind = ArgKind.nativeValue then
            write_method r.function r.cname (a :: t) ret (a :: t)
              (getDoc r.function) r.obsolete
          else ""),
         write_method r.function r.cname (pariInstanceArgument :: a :: t) ret
           (a :: t) (getDoc r.function) r.obsolete) := by
  rw [handle_pari_function]
  simp [parse_prototype, h]

theorem handle_decl_eq
    (core : String → String → Option (List PariArg × PariRet))
    (getDoc : String → String) (r : PariDescRecord) (args : List PariArg)
    (ret : PariRet) (h : core r.prototype r.help = some (args, ret)) :
    (handle_pari_function core getDoc r).1
      = write_declaration r.cname args ret := by
  cases args with
  | nil => rw [handle_pari_function_eq_nil core getDoc r ret h]
  | cons a t => rw [handle_pari_function_eq_cons core getDoc r a t ret h]

theorem handle_inst_eq
    (core : String → String → Option (List PariArg × PariRet))
    (getDoc : String → String) (r : PariDescRecord) (args : List PariArg)
    (ret : PariRet) (h : core r.prototype r.help = some (args, ret)) :
    (handle_pari_function core getDoc r).2.2
      = write_method r.function r.cname (pariInstanceArgument :: args) ret args
          (getDoc r.function) r.obsolete := by
  cases args with
  | nil => rw [handle_pari_function_eq_nil core getDoc r ret h]
  | cons a t => rw [handle_pari_function_eq_cons core getDoc r a t ret h]

/--
Claim C3: for every record whose prototype parses successfully,
`handle_pari_function` emits exactly one declaration line and exactly one
Pari (instance-class) method, and emits a Gen (value-class) method iff the
plain parse yields a non-empty argument list whose first argument is of the
native-handle (GEN) kind.
-/
theorem claim_C3 (core : String → String → Option (List PariArg × PariRet))
    (getDoc : String → String) (r : PariDescRecord) (args : List PariArg)
    (ret : PariRet) (h : core r.prototype r.help = some (args, ret)) :
    (handle_pari_function core getDoc r).1 = write_declaration r.cname args ret ∧
    (handle_pari_function core getDoc r).2.2
      = write_method r.function r.cname (pariInstanceArgument :: args) ret args
          (getDoc r.function) r.obsolete ∧
    ((handle_pari_function core getDoc r).2.1 ≠ "" ↔
      ∃ a t, args = a :: t ∧ a.kind = ArgKind.nativeValue) ∧
    (∀ a t, args = a :: t → a.kind = ArgKind.nativeValue →
      (handle_pari_function core getDoc r).2.1
        = write_method r.function r.cname args ret args (getDoc r.function)
            r.obsolete) := by
  refine ⟨handle_decl_eq core getDoc r args ret h,
    handle_inst_eq core getDoc r args ret h, ?_, ?_⟩
  · cases args with
    | nil =>
      rw [handle_pari_function_eq_nil core getDoc r ret h]
      simp
    | cons a t =>
      rw [handle_pari_function_eq_cons core getDoc r a t ret h]
      by_cases hk : a.kind = ArgKind.nativeValue
      · dsimp only
        rw [if_pos hk]
        constructor
        · intro _
          exact ⟨a, t, rfl, hk⟩
        · intro _
          exact write_method_ne_empty _ _ _ _ _ _ _
      · dsimp only
        rw [if_neg hk]
        constructor
        · intro hne
          exact absurd rfl hne
        · rintro ⟨a2, t2, heq, hk2⟩
          injection heq with h1 h2
          subst h1
          exact absurd hk2 hk
  · intro a t ha hk
    subst ha
    rw [handle_pari_function_eq_cons core getDoc r a t ret h]
    dsimp only
    rw [if_pos hk]

/-- Claim C3, witness at the `bnfinit`-shaped sample instance. -/
theorem claim_C3_witness :
    sampleCore "G" "" = some ([sampleArgGEN], sampleRet) ∧
    ((handle_pari_function sampleCore emptyDoc sampleRecord).1
        = write_declaration "bnfinit0" [sampleArgGEN] sampleRet ∧
     (handle_pari_function sampleCore emptyDoc sampleRecord).2.2
        = write_method "bnfinit" "bnfinit0" (pariInstanceArgument :: [sampleArgGEN])
            sampleRet [sampleArgGEN] (emptyDoc "bnfinit") none ∧
     ((handle_pari_function sampleCore emptyDoc sampleRecord).2.1 ≠ "" ↔
       ∃ a t, [sampleArgGEN] = a :: t ∧ a.kind = ArgKind.nativeValue) ∧
     (∀ a t, [sampleArgGEN] = a :: t → a.kind = ArgKind.nativeValue →
       (handle_pari_function sampleCore emptyDoc sampleRecord).2.1
         = write_method "bnfinit" "bnfinit0" [sampleArgGEN] sampleRet
             [sampleArgGEN] (emptyDoc "bnfinit") none)) :=
  ⟨rfl, claim_C3 sampleCore emptyDoc sampleRecord [sampleArgGEN] sampleRet rfl⟩

/--
Claim C9: in every emitted instance-class method the synthetic leading
context argument appears in the generated parameter list (as `self`) but
never in the native call expression: the call arguments are exactly the
parsed arguments with the first (context) element removed, the declaration
line is derived from the plain parse without the context argument, and the
declaration's argument arity equals the instance method's native-call arity.
-/
theorem claim_C9 (core : String → String → Option (List PariArg × PariRet))
    (getDoc : String → String) (r : PariDescRecord) (args : List PariArg)
    (ret : PariRet) (h : core r.prototype r.help = some (args, ret)) :
    (handle_pari_function core getDoc r).2.2
      = spec_signature_line r.function (pariInstanceArgument :: args)
        ++ spec_docstring_block (getDoc r.function)
        ++ spec_deprecation_block r.function r.obsolete
        ++ spec_warning_block r.function (pariInstanceArgument :: args)
        ++ spec_conversion_block (pariInstanceArgument :: args)
        ++ "        sig_on()\n"
        ++ spec_call_block r.cname args ret
        ++ ret.return_code
        ++ "\n" ∧
    spec_signature_line r.function (pariInstanceArgument :: args)
      = "    def " ++ r.function ++ "("
        ++ String.intercalate ", " ("self" :: args.map PariArg.prototype_code)
        ++ "):\n" ∧
    spec_call_block r.cname args ret
      = ret.assignPre ++ r.cname ++ "("
        ++ String.intercalate ", " (args.map PariArg.call_code) ++ ")"
        ++ ret.assignPost ∧
    (args.map PariArg.ctype).length = (args.map PariArg.call_code).length ∧
    (handle_pari_function core getDoc r).1 = write_declaration r.cname args ret := by
  refine ⟨?_, ?_, ?_, by simp, handle_decl_eq core getDoc r args ret h⟩
  · rw [handle_inst_eq core getDoc r args ret h]
    have ht := write_method_eq_template r.function r.cname
      (pariInstanceArgument :: args) ret args (getDoc r.function) r.obsolete
    rw [spec_method_template] at ht
    exact ht
  · simp [spec_signature_line, pariInstanceArgument]
  · simp [spec_call_block, PariRet.assign_code, str_assoc]

/-- Claim C9, witness at the `bnfinit`-shaped sample instance. -/
theorem claim_C9_witness :
    sampleCore "G" "" = some ([sampleArgGEN], sampleRet) ∧
    ((handle_pari_function sampleCore emptyDoc sampleRecord).2.2
        = spec_signature_line "bnfinit" (pariInstanceArgument :: [sampleArgGEN])
          ++ spec_docstring_block (emptyDoc "bnfinit")
          ++ spec_deprecation_block "bnfinit" none
          ++ spec_warning_block "bnfinit" (pariInstanceArgument :: [sampleArgGEN])
          ++ spec_conversion_block (pariInstanceArgument :: [sampleArgGEN])
          ++ "        sig_on()\n"
          ++ spec_call_block "bnfinit0" [sampleArgGEN] sampleRet
          ++ sampleRet.return_code
          ++ "\n" ∧
     spec_signature_line "bnfinit" (pariInstanceArgument :: [sampleArgGEN])
        = "    def " ++ "bnfinit" ++ "("
          ++ String.intercalate ", "
              ("self" :: [sampleArgGEN].map PariArg.prototype_code)
          ++ "):\n" ∧
     spec_call_block "bnfinit0" [sampleArgGEN] sampleRet
        = sampleRet.assignPre ++ "bnfinit0" ++ "("
          ++ String.intercalate ", " ([sampleArgGEN].map PariArg.call_code) ++ ")"
          ++ sampleRet.assignPost ∧
     ([sampleArgGEN].map PariArg.ctype).length
        = ([sampleArgGEN].map PariArg.call_code).length ∧
     (handle_pari_function sampleCore emptyDoc sampleRecord).1
        = write_declaration "bnfinit0" [sampleArgGEN] sampleRet) :=
  ⟨rfl, claim_C9 sampleCore emptyDoc sampleRecord [sampleArgGEN] sampleRet rfl⟩

/-! ### Failure isolation (claim C1) -/

/--
Claim C1: for every record whose prototype makes the parse fail with the
unsupported-prototype error, `handle_pari_function` skips that single
function entirely — it contributes nothing to any of the three streams — and
the batch continues: the stream bodies of a batch containing the record are
exactly the stream bodies of the batch without it, so every other function's
output in all three artifacts is unchanged.
-/
theorem claim_C1 (core : String → String → Option (List PariArg × PariRet))
    (getDoc : String → String) (L1 L2 : List PariDescRecord)
    (r : PariDescRecord) (hfail : core r.prototype r.help = none) :
    handle_pari_function core getDoc r = ("", "", "") ∧
    processAll core getDoc (L1 ++ r :: L2) = processAll core getDoc (L1 ++ L2) := by
  have hskip : handle_pari_function core getDoc r = ("", "", "") := by
    rw [handle_pari_function]
    simp [parse_prototype, hfail]
  refine ⟨hskip, ?_⟩
  induction L1 with
  | nil =>
    simp only [List.nil_append]
    rw [processAll]
    by_cases hacc : acceptsRecord r = true
    · simp [hacc, hskip, str_empty_append]
    · simp [hacc]
  | cons x L1 ih =>
    simp only [List.cons_append]
    rw [processAll, processAll]
    rw [ih]

/-- Claim C1, witness: a batch of two records where the first fails to parse. -/
theorem claim_C1_witness :
    failCore "G" "" = none ∧
    (handle_pari_function failCore emptyDoc sampleRecord = ("", "", "") ∧
     processAll failCore emptyDoc ([] ++ sampleRecord :: [sampleRecord2])
       = processAll failCore emptyDoc ([] ++ [sampleRecord2])) :=
  ⟨rfl, claim_C1 failCore emptyDoc [] [sampleRecord2] sampleRecord rfl⟩

/-! ### Determinism (claim C7) -/

theorem eq_of_perm_sorted_nodup :
    ∀ l1 l2 : List PariDescRecord, List.Perm l1 l2 →
      l1.Sorted recordLE → l2.Sorted recordLE →
      (l1.map PariDescRecord.function).Nodup → l1 = l2 := by
  intro l1
  induction l1 with
  | nil =>
    intro l2 hp _ _ _
    exact hp.nil_eq
  | cons a t ih =>
    intro l2 hp hs1 hs2 hnd
    cases l2 with
    | nil => exact absurd hp.symm.nil_eq (by simp)
    | cons b t2 =>
      have hndc : (∀ x ∈ t, ¬ x.function = a.function)
          ∧ (t.map PariDescRecord.function).Nodup := by
        simpa using hnd
      have hab : a = b := by
        by_contra hne
        have ha2 : a ∈ b :: t2 := hp.mem_iff.mp (List.mem_cons_self a t)
        have hb1 : b ∈ a :: t := hp.symm.mem_iff.mp (List.mem_cons_self b t2)
        have ha2' : a ∈ t2 := (List.mem_cons.mp ha2).resolve_left hne
        have hb1' : b ∈ t :=
          (List.mem_cons.mp hb1).resolve_left (fun hh => hne hh.symm)
        have hr1 : recordLE a b := (List.sorted_cons.mp hs1).1 b hb1'
        have hr2 : recordLE b a := (List.sorted_cons.mp hs2).1 a ha2'
        have hkey : a.function = b.function := le_antisymm hr1 hr2
        exact (hndc.1 b hb1') hkey.symm
      subst hab
      have hp' : List.Perm t t2 := hp.cons_inv
      rw [ih t2 hp' (List.sorted_cons.mp hs1).2 (List.sorted_cons.mp hs2).2 hndc.2]

theorem sortRecords_eq_of_perm (D1 D2 : List PariDescRecord)
    (hperm : List.Perm D1 D2)
    (hnd : (D1.map PariDescRecord.function).Nodup) :
    sortRecords D1 = sortRecords D2 := by
  apply eq_of_perm_sorted_nodup
  · exact (List.perm_insertionSort recordLE D1).trans
      (hperm.trans (List.perm_insertionSort recordLE D2).symm)
  · exact List.sorted_insertionSort recordLE D1
  · exact List.sorted_insertionSort recordLE D2
  · exact (((List.perm_insertionSort recordLE D1).map
      PariDescRecord.function).nodup_iff).mpr hnd

/--
Claim C7: a full run is a pure function of the catalog contents — running
the generation twice on the same unchanged catalog (a mapping keyed by
function name, hence distinct names, iterated in order sorted by function
name) produces byte-identical contents for all three artifacts, regardless
of the enumeration order the catalog presented the records in.
-/
theorem claim_C7 (relp filep : String)
    (core : String → String → Option (List PariArg × PariRet))
    (getDoc : String → String) (D1 D2 : List PariDescRecord)
    (hperm : List.Perm D1 D2)
    (hnd : (D1.map PariDescRecord.function).Nodup) :
    generatorCall relp filep core getDoc D1
      = generatorCall relp filep core getDoc D2 := by
  rw [generatorCall, generatorCall, sortRecords_eq_of_perm D1 D2 hperm hnd]

/-- Claim C7, witness: the same two-record catalog in both orders. -/
theorem claim_C7_witness :
    List.Perm [sampleRecord, sampleRecord2] [sampleRecord2, sampleRecord] ∧
    ([sampleRecord, sampleRecord2].map PariDescRecord.function).Nodup ∧
    generatorCall "autogen/generator.py" "autogen/generator.py" sampleCore
        emptyDoc [sampleRecord, sampleRecord2]
      = generatorCall "autogen/generator.py" "autogen/generator.py" sampleCore
        emptyDoc [sampleRecord2, sampleRecord] :=
  ⟨List.Perm.swap sampleRecord2 sampleRecord [], by decide,
    claim_C7 "autogen/generator.py" "autogen/generator.py" sampleCore emptyDoc
      [sampleRecord, sampleRecord2] [sampleRecord2, sampleRecord]
      (List.Perm.swap sampleRecord2 sampleRecord []) (by decide)⟩

/-! ### The HAVE_PLOT_SVG flag (claim C8) -/

theorem true_false_clash (x y : String) :
    x ++ "DEF HAVE_PLOT_SVG = False" ≠ y ++ "DEF HAVE_PLOT_SVG = True" := by
  intro h
  have hd := congrArg String.data h
  rw [String.data_append, String.data_append] at hd
  have hrev := congrArg List.reverse hd
  rw [List.reverse_append, List.reverse_append] at hrev
  rw [show ("DEF HAVE_PLOT_SVG = False".data).reverse
      = 'e' :: 's' :: ("DEF HAVE_PLOT_SVG = False".data).reverse.drop 2 from
      by decide] at hrev
  rw [show ("DEF HAVE_PLOT_SVG = True".data).reverse
      = 'e' :: 'u' :: ("DEF HAVE_PLOT_SVG = True".data).reverse.drop 2 from
      by decide] at hrev
  rw [List.cons_append, List.cons_append, List.cons_append, List.cons_append]
    at hrev
  injection hrev with h1 h2
  injection h2 with h3 h4
  exact absurd h3 (by decide)

theorem flag_line_true (X : String) :
    X ++ "DEF HAVE_PLOT_SVG = " ++ pyBool true = X ++ "DEF HAVE_PLOT_SVG = True" := by
  rw [str_assoc]
  rw [show ("DEF HAVE_PLOT_SVG = " : String) ++ pyBool true
      = "DEF HAVE_PLOT_SVG = True" from by decide]

theorem flag_line_false (X : String) :
    X ++ "DEF HAVE_PLOT_SVG = " ++ pyBool false
      = X ++ "DEF HAVE_PLOT_SVG = False" := by
  rw [str_assoc]
  rw [show ("DEF HAVE_PLOT_SVG = " : String) ++ pyBool false
      = "DEF HAVE_PLOT_SVG = False" from by decide]

theorem plotFlag_iff (D : List PariDescRecord) :
    plotFlag (sortRecords D) = true
      ↔ ∃ r ∈ D, acceptsRecord r = true ∧ r.function = "plothraw" := by
  rw [plotFlag, List.any_eq_true]
  constructor
  · rintro ⟨r, hr, hcond⟩
    have hc : acceptsRecord r = true ∧ (r.function == "plothraw") = true := by
      simpa using hcond
    exact ⟨r, (List.perm_insertionSort recordLE D).subset hr, hc.1,
      by simpa using hc.2⟩
  · rintro ⟨r, hr, hacc, hname⟩
    refine ⟨r, (List.perm_insertionSort recordLE D).symm.subset hr, ?_⟩
    rw [Bool.and_eq_true]
    exact ⟨hacc, by simpa using hname⟩

/--
Claim C8: after every full run, the instance-type method file ends with the
line `DEF HAVE_PLOT_SVG = True` iff some record accepted by the eligibility
filter has function name `plothraw`; otherwise it ends with
`DEF HAVE_PLOT_SVG = False`.
-/
theorem claim_C8 (relp filep : String)
    (core : String → String → Option (List PariArg × PariRet))
    (getDoc : String → String) (D : List PariDescRecord) :
    ((∃ body, (generatorCall relp filep core getDoc D).instanceFile
        = body ++ "DEF HAVE_PLOT_SVG = True")
      ↔ ∃ r ∈ D, acceptsRecord r = true ∧ r.function = "plothraw") ∧
    ((∃ body, (generatorCall relp filep core getDoc D).instanceFile
        = body ++ "DEF HAVE_PLOT_SVG = False")
      ↔ ¬ ∃ r ∈ D, acceptsRecord r = true ∧ r.function = "plothraw") := by
  cases hfl : plotFlag (sortRecords D) with
  | true =>
    have hft : (generatorCall relp filep core getDoc D).instanceFile
        = (instance_banner relp ++ (processAll core getDoc (sortRecords D)).2.2)
          ++ "DEF HAVE_PLOT_SVG = True" := by
      rw [generatorCall]
      dsimp only
      rw [hfl]
      exact flag_line_true _
    constructor
    · constructor
      · intro _
        exact (plotFlag_iff D).mp hfl
      · intro _
        exact ⟨_, hft⟩
    · constructor
      · rintro ⟨body, hbody⟩
        rw [hft] at hbody
        exact absurd hbody.symm (true_false_clash body _)
      · intro hnex
        exact absurd ((plotFlag_iff D).mp hfl) hnex
  | false =>
    have hff : (generatorCall relp filep core getDoc D).instanceFile
        = (instance_banner relp ++ (processAll core getDoc (sortRecords D)).2.2)
          ++ "DEF HAVE_PLOT_SVG = False" := by
      rw [generatorCall]
      dsimp only
      rw [hfl]
      exact flag_line_false _
    constructor
    · constructor
      · rintro ⟨body, hbody⟩
        rw [hff] at hbody
        exact absurd hbody (true_false_clash _ body)
      · intro hex
        have := (plotFlag_iff D).mpr hex
        rw [hfl] at this
        exact absurd this (by decide)
    · constructor
      · intro _
        intro hex
        have := (plotFlag_iff D).mpr hex
        rw [hfl] at this
        exact absurd this (by decide)
      · intro _
        exact ⟨_, hff⟩

/-! ### Atomicity of the run (claim C6) -/

theorem applyTrace_append (fs : FileSys) (A B : List FileEvent) :
    applyTrace fs (A ++ B) = applyTrace (applyTrace fs A) B := by
  rw [applyTrace, applyTrace, applyTrace, List.foldl_append]

theorem applyTrace_untouched :
    ∀ (es : List FileEvent) (fs : FileSys) (f : String),
      (∀ e ∈ es, touches e f = false) → applyTrace fs es f = fs f := by
  intro es
  induction es with
  | nil =>
    intro fs f _
    rfl
  | cons e es ih =>
    intro fs f h
    have hstep : applyEvent fs e f = fs f := by
      have he := h e (List.mem_cons_self e es)
      cases e with
      | openTmp p =>
        have hne : ¬ f = p := by
          intro hh
          subst hh
          simp [touches] at he
        simp [applyEvent, hne]
      | writeF p s =>
        have hne : ¬ f = p := by
          intro hh
          subst hh
          simp [touches] at he
        simp [applyEvent, hne]
      | closeF p => rfl
      | renameF a b =>
        have hne1 : ¬ f = b := by
          intro hh
          subst hh
          simp [touches] at he
        have hne2 : ¬ f = a := by
          intro hh
          subst hh
          simp [touches] at he
        simp [applyEvent, hne1, hne2]
    have hcons : applyTrace fs (e :: es) f = applyTrace (applyEvent fs e) es f := by
      rw [applyTrace, applyTrace, List.foldl_cons]
    rw [hcons, ih (applyEvent fs e) f (fun e2 h2 => h e2 (List.mem_cons_of_mem e h2)),
      hstep]

theorem applyTrace_setup (relp filep : String) (fs : FileSys) :
    applyTrace fs (callTraceSetup relp filep) (gen_filename ++ ".tmp")
        = some (gen_banner relp)
    ∧ applyTrace fs (callTraceSetup relp filep) (instance_filename ++ ".tmp")
        = some (instance_banner relp)
    ∧ applyTrace fs (callTraceSetup relp filep) (decl_filename ++ ".tmp")
        = some (decl_banner filep)
    ∧ ∀ q, ¬ q = gen_filename ++ ".tmp" → ¬ q = instance_filename ++ ".tmp" →
        ¬ q = decl_filename ++ ".tmp" →
        applyTrace fs (callTraceSetup relp filep) q = fs q := by
  refine ⟨?_, ?_, ?_, ?_⟩
  · simp [callTraceSetup, applyTrace, applyEvent, gen_filename,
      instance_filename, decl_filename, str_empty_append]
  · simp [callTraceSetup, applyTrace, applyEvent, gen_filename,
      instance_filename, decl_filename, str_empty_append]
  · simp [callTraceSetup, applyTrace, applyEvent, gen_filename,
      instance_filename, decl_filename, str_empty_append]
  · intro q h1 h2 h3
    simp [gen_filename, instance_filename, decl_filename] at h1 h2 h3
    simp [callTraceSetup, applyTrace, applyEvent, gen_filename,
      instance_filename, decl_filename, h1, h2, h3]

theorem applyTrace_loop (core : String → String → Option (List PariArg × PariRet))
    (getDoc : String → String) :
    ∀ (L : List PariDescRecord) (fs : FileSys) (sd sg si : String),
      fs (decl_filename ++ ".tmp") = some sd →
      fs (gen_filename ++ ".tmp") = some sg →
      fs (instance_filename ++ ".tmp") = some si →
      applyTrace fs (loopEvents core getDoc L) (decl_filename ++ ".tmp")
          = some (sd ++ (processAll core getDoc L).1)
      ∧ applyTrace fs (loopEvents core getDoc L) (gen_filename ++ ".tmp")
          = some (sg ++ (processAll core getDoc L).2.1)
      ∧ applyTrace fs (loopEvents core getDoc L) (instance_filename ++ ".tmp")
          = some (si ++ (processAll core getDoc L).2.2)
      ∧ ∀ q, ¬ q = decl_filename ++ ".tmp" → ¬ q = gen_filename ++ ".tmp" →
          ¬ q = instance_filename ++ ".tmp" →
          applyTrace fs (loopEvents core getDoc L) q = fs q := by
  intro L
  induction L with
  | nil =>
    intro fs sd sg si hd hg hi
    refine ⟨?_, ?_, ?_, fun q _ _ _ => rfl⟩
    · simpa [loopEvents, applyTrace, processAll, str_append_empty] using hd
    · simpa [loopEvents, applyTrace, processAll, str_append_empty] using hg
    · simpa [loopEvents, applyTrace, processAll, str_append_empty] using hi
  | cons r L ih =>
    intro fs sd sg si hd hg hi
    have hsplit : applyTrace fs (loopEvents core getDoc (r :: L))
        = applyTrace (applyTrace fs (recordEvents core getDoc r))
            (loopEvents core getDoc L) := by
      rw [loopEvents, applyTrace_append]
    by_cases hacc : acceptsRecord r = true
    · have hd1 : applyTrace fs (recordEvents core getDoc r) (decl_filename ++ ".tmp")
          = some (sd ++ (handle_pari_function core getDoc r).1) := by
        simp [recordEvents, hacc, applyTrace, applyEvent, gen_filename,
          instance_filename, decl_filename] at hd ⊢
        simp [hd]
      have hg1 : applyTrace fs (recordEvents core getDoc r) (gen_filename ++ ".tmp")
          = some (sg ++ (handle_pari_function core getDoc r).2.1) := by
        simp [recordEvents, hacc, applyTrace, applyEvent, gen_filename,
          instance_filename, decl_filename] at hg ⊢
        simp [hg]
      have hi1 : applyTrace fs (recordEvents core getDoc r) (instance_filename ++ ".tmp")
          = some (si ++ (handle_pari_function core getDoc r).2.2) := by
        simp [recordEvents, hacc, applyTrace, applyEvent, gen_filename,
          instance_filename, decl_filename] at hi ⊢
        simp [hi]
      have hq1 : ∀ q, ¬ q = decl_filename ++ ".tmp" → ¬ q = gen_filename ++ ".tmp" →
          ¬ q = instance_filename ++ ".tmp" →
          applyTrace fs (recordEvents core getDoc r) q = fs q := by
        intro q h1 h2 h3
        simp [gen_filename, instance_filename, decl_filename] at h1 h2 h3
        simp [recordEvents, hacc, applyTrace, applyEvent, gen_filename,
          instance_filename, decl_filename, h1, h2, h3]
      obtain ⟨c1, c2, c3, c4⟩ := ih (applyTrace fs (recordEvents core getDoc r))
        (sd ++ (handle_pari_function core getDoc r).1)
        (sg ++ (handle_pari_function core getDoc r).2.1)
        (si ++ (handle_pari_function core getDoc r).2.2) hd1 hg1 hi1
      refine ⟨?_, ?_, ?_, ?_⟩
      · rw [hsplit, c1, processAll]
        simp [hacc, str_assoc]
      · rw [hsplit, c2, processAll]
        simp [hacc, str_assoc]
      · rw [hsplit, c3, processAll]
        simp [hacc, str_assoc]
      · intro q h1 h2 h3
        rw [hsplit, c4 q h1 h2 h3, hq1 q h1 h2 h3]
    · have hrec : recordEvents core getDoc r = [] := by
        simp [recordEvents, hacc]
      have hproc : processAll core getDoc (r :: L) = processAll core getDoc L := by
        rw [processAll]
        simp [hacc]
      obtain ⟨c1, c2, c3, c4⟩ := ih fs sd sg si hd hg hi
      rw [hsplit, hrec]
      refine ⟨?_, ?_, ?_, ?_⟩
      · rw [hproc]
        exact c1
      · rw [hproc]
        exact c2
      · rw [hproc]
        exact c3
      · intro q h1 h2 h3
        exact c4 q h1 h2 h3

theorem applyTrace_finish (flagText : String) (fs : FileSys) (si : String)
    (hi : fs (instance_filename ++ ".tmp") = some si) :
    applyTrace fs (callTraceFinish flagText) (instance_filename ++ ".tmp")
        = some (si ++ flagText)
    ∧ ∀ q, ¬ q = instance_filename ++ ".tmp" →
        applyTrace fs (callTraceFinish flagText) q = fs q := by
  constructor
  · simp [callTraceFinish, applyTrace, applyEvent, instance_filename] at hi ⊢
    simp [hi]
  · intro q h1
    simp [instance_filename] at h1
    simp [callTraceFinish, applyTrace, applyEvent, instance_filename, h1]

theorem prefix_append_cases {α : Type} {p A B : List α} (h : p <+: A ++ B) :
    p <+: A ∨ ∃ q, p = A ++ q ∧ q <+: B := by
  obtain ⟨t, ht⟩ := h
  by_cases hlen : p.length ≤ A.length
  · left
    have h1 : (p ++ t).take p.length = p := List.take_left p t
    rw [ht, List.take_append_eq_append_take,
      Nat.sub_eq_zero_of_le hlen, List.take_zero, List.append_nil] at h1
    rw [← h1]
    exact List.take_prefix _ _
  · right
    have hle : A.length ≤ p.length := Nat.le_of_lt (Nat.lt_of_not_le hlen)
    have h1 : (p ++ t).take A.length = A := by
      rw [ht]
      exact List.take_left A B
    rw [List.take_append_eq_append_take, Nat.sub_eq_zero_of_le hle,
      List.take_zero, List.append_nil] at h1
    have h3 : (p ++ t).drop A.length = B := by
      rw [ht]
      exact List.drop_left A B
    rw [List.drop_append_eq_append_drop, Nat.sub_eq_zero_of_le hle,
      List.drop_zero] at h3
    refine ⟨p.drop A.length, ?_, t, h3⟩
    conv_lhs => rw [← List.take_append_drop A.length p]
    rw [h1]

theorem prefix_cons_cases {α : Type} {p : List α} {a : α} {B : List α}
    (h : p <+: a :: B) : p = [] ∨ ∃ q, p = a :: q ∧ q <+: B := by
  cases p with
  | nil => exact Or.inl rfl
  | cons x p2 =>
    obtain ⟨t, ht⟩ := h
    rw [List.cons_append] at ht
    injection ht with h1 h2
    subst h1
    exact Or.inr ⟨p2, rfl, t, h2⟩

theorem recordEvents_touches_final
    (core : String → String → Option (List PariArg × PariRet))
    (getDoc : String → String) (r : PariDescRecord) (f : String)
    (hf : f = gen_filename ∨ f = instance_filename ∨ f = decl_filename) :
    ∀ e ∈ recordEvents core getDoc r, touches e f = false := by
  intro e he
  rw [recordEvents] at he
  by_cases hacc : acceptsRecord r = true
  · rw [if_pos hacc] at he
    simp only [List.mem_cons, List.not_mem_nil, or_false] at he
    rcases he with rfl | rfl | rfl <;> rcases hf with rfl | rfl | rfl <;>
      simp [touches, gen_filename, instance_filename, decl_filename]
  · rw [if_neg hacc] at he
    exact absurd he (by simp)

theorem loopEvents_touches_final
    (core : String → String → Option (List PariArg × PariRet))
    (getDoc : String → String) (f : String)
    (hf : f = gen_filename ∨ f = instance_filename ∨ f = decl_filename) :
    ∀ L : List PariDescRecord, ∀ e ∈ loopEvents core getDoc L,
      touches e f = false := by
  intro L
  induction L with
  | nil =>
    intro e he
    rw [loopEvents] at he
    exact absurd he (by simp)
  | cons r L ih =>
    intro e he
    rw [loopEvents] at he
    rcases List.mem_append.mp he with h1 | h2
    · exact recordEvents_touches_final core getDoc r f hf e h1
    · exact ih e h2

theorem setup_touches_final (relp filep : String) (f : String)
    (hf : f = gen_filename ∨ f = instance_filename ∨ f = decl_filename) :
    ∀ e ∈ callTraceSetup relp filep, touches e f = false := by
  intro e he
  simp only [callTraceSetup, List.mem_cons, List.not_mem_nil, or_false] at he
  rcases he with rfl | rfl | rfl | rfl | rfl | rfl <;>
    rcases hf with rfl | rfl | rfl <;>
    simp [touches, gen_filename, instance_filename, decl_filename]

theorem finish_touches_final (flagText : String) (f : String)
    (hf : f = gen_filename ∨ f = instance_filename ∨ f = decl_filename) :
    ∀ e ∈ callTraceFinish flagText, touches e f = false := by
  intro e he
  simp only [callTraceFinish, List.mem_cons, List.not_mem_nil, or_false] at he
  rcases he with rfl | rfl | rfl | rfl <;>
    rcases hf with rfl | rfl | rfl <;>
    simp [touches, gen_filename, instance_filename, decl_filename]

theorem recordEvents_isRename
    (core : String → String → Option (List PariArg × PariRet))
    (getDoc : String → String) (r : PariDescRecord) :
    ∀ e ∈ recordEvents core getDoc r, FileEvent.isRename e = false := by
  intro e he
  rw [recordEvents] at he
  by_cases hacc : acceptsRecord r = true
  · rw [if_pos hacc] at he
    simp only [List.mem_cons, List.not_mem_nil, or_false] at he
    rcases he with rfl | rfl | rfl <;> rfl
  · rw [if_neg hacc] at he
    exact absurd he (by simp)

theorem loopEvents_isRename
    (core : String → String → Option (List PariArg × PariRet))
    (getDoc : String → String) :
    ∀ L : List PariDescRecord, ∀ e ∈ loopEvents core getDoc L,
      FileEvent.isRename e = false := by
  intro L
  induction L with
  | nil =>
    intro e he
    rw [loopEvents] at he
    exact absurd he (by simp)
  | cons r L ih =>
    intro e he
    rw [loopEvents] at he
    rcases List.mem_append.mp he with h1 | h2
    · exact recordEvents_isRename core getDoc r e h1
    · exact ih e h2

theorem renames_prefix_safety (fsW fs0 : FileSys) (gout iout dout : String)
    (hWg : fsW (gen_filename ++ ".tmp") = some gout)
    (hWi : fsW (instance_filename ++ ".tmp") = some iout)
    (hWd : fsW (decl_filename ++ ".tmp") = some dout)
    (hfing : fsW gen_filename = fs0 gen_filename)
    (hfini : fsW instance_filename = fs0 instance_filename)
    (hfind : fsW decl_filename = fs0 decl_filename)
    (q : List FileEvent) (hq : q <+: callTraceRenames) :
    (applyTrace fsW q gen_filename = fs0 gen_filename
      ∨ applyTrace fsW q gen_filename = some gout) ∧
    (applyTrace fsW q instance_filename = fs0 instance_filename
      ∨ applyTrace fsW q instance_filename = some iout) ∧
    (applyTrace fsW q decl_filename = fs0 decl_filename
      ∨ applyTrace fsW q decl_filename = some dout) := by
  rw [callTraceRenames] at hq
  rcases prefix_cons_cases hq with rfl | ⟨q1, rfl, hq1⟩
  · exact ⟨Or.inl hfing, Or.inl hfini, Or.inl hfind⟩
  · rcases prefix_cons_cases hq1 with rfl | ⟨q2, rfl, hq2⟩
    · refine ⟨Or.inr ?_, Or.inl ?_, Or.inl ?_⟩
      · simp [applyTrace, applyEvent, gen_filename, instance_filename,
          decl_filename] at hWg ⊢
        exact hWg
      · simp [applyTrace, applyEvent, gen_filename, instance_filename,
          decl_filename] at hfini ⊢
        exact hfini
      · simp [applyTrace, applyEvent, gen_filename, instance_filename,
          decl_filename] at hfind ⊢
        exact hfind
    · rcases prefix_cons_cases hq2 with rfl | ⟨q3, rfl, hq3⟩
      · refine ⟨Or.inr ?_, Or.inr ?_, Or.inl ?_⟩
        · simp [applyTrace, applyEvent, gen_filename, instance_filename,
            decl_filename] at hWg ⊢
          exact hWg
        · simp [applyTrace, applyEvent, gen_filename, instance_filename,
            decl_filename] at hWi ⊢
          exact hWi
        · simp [applyTrace, applyEvent, gen_filename, instance_filename,
            decl_filename] at hfind ⊢
          exact hfind
      · have hq4 : q3 = [] := by
          obtain ⟨t, ht⟩ := hq3
          exact (List.append_eq_nil.mp ht).1
        subst hq4
        refine ⟨Or.inr ?_, Or.inr ?_, Or.inr ?_⟩
        · simp [applyTrace, applyEvent, gen_filename, instance_filename,
            decl_filename] at hWg ⊢
          exact hWg
        · simp [applyTrace, applyEvent, gen_filename, instance_filename,
            decl_filename] at hWi ⊢
          exact hWi
        · simp [applyTrace, applyEvent, gen_filename, instance_filename,
            decl_filename] at hWd ⊢
          exact hWd

/--
Claim C6: a full run writes each of the three artifacts to a temporary path
and renames each temporary into its final place only after all three streams
have been completely written and closed — in the event trace of `__call__`
every event before the three final renames is a non-rename (open / write /
close), and for every prefix of the trace (an interrupted run) each final
path still holds its original contents or already holds the complete new
artifact; never partial content.
-/
theorem claim_C6 (relp filep : String)
    (core : String → String → Option (List PariArg × PariRet))
    (getDoc : String → String) (D : List PariDescRecord) :
    (∀ e ∈ callTraceSetup relp filep
        ++ loopEvents core getDoc (sortRecords D)
        ++ callTraceFinish
            ("DEF HAVE_PLOT_SVG = " ++ pyBool (plotFlag (sortRecords D))),
      FileEvent.isRename e = false) ∧
    callTrace relp filep core getDoc D
      = (callTraceSetup relp filep
          ++ loopEvents core getDoc (sortRecords D)
          ++ callTraceFinish
              ("DEF HAVE_PLOT_SVG = " ++ pyBool (plotFlag (sortRecords D))))
        ++ callTraceRenames ∧
    ∀ p, p <+: callTrace relp filep core getDoc D → ∀ fs : FileSys,
      (applyTrace fs p gen_filename = fs gen_filename
        ∨ applyTrace fs p gen_filename
            = some (generatorCall relp filep core getDoc D).genFile) ∧
      (applyTrace fs p instance_filename = fs instance_filename
        ∨ applyTrace fs p instance_filename
            = some (generatorCall relp filep core getDoc D).instanceFile) ∧
      (applyTrace fs p decl_filename = fs decl_filename
        ∨ applyTrace fs p decl_filename
            = some (generatorCall relp filep core getDoc D).declFile) := by
  refine ⟨?_, rfl, ?_⟩
  · intro e he
    rcases List.mem_append.mp he with h12 | h3
    · rcases List.mem_append.mp h12 with h1 | h2
      · simp only [callTraceSetup, List.mem_cons, List.not_mem_nil, or_false] at h1
        rcases h1 with rfl | rfl | rfl | rfl | rfl | rfl <;> rfl
      · exact loopEvents_isRename core getDoc _ e h2
    · simp only [callTraceFinish, List.mem_cons, List.not_mem_nil, or_false] at h3
      rcases h3 with rfl | rfl | rfl | rfl <;> rfl
  · intro p hp fs
    have hdecomp : callTrace relp filep core getDoc D
        = (callTraceSetup relp filep
            ++ loopEvents core getDoc (sortRecords D)
            ++ callTraceFinish
                ("DEF HAVE_PLOT_SVG = " ++ pyBool (plotFlag (sortRecords D))))
          ++ callTraceRenames := rfl
    rw [hdecomp] at hp
    rcases prefix_append_cases hp with hW | ⟨q, rfl, hq⟩
    · have huntouch : ∀ f,
          f = gen_filename ∨ f = instance_filename ∨ f = decl_filename →
          applyTrace fs p f = fs f := by
        intro f hf
        apply applyTrace_untouched
        intro e he
        have he2 := hW.subset he
        rcases List.mem_append.mp he2 with h12 | h3
        · rcases List.mem_append.mp h12 with h1 | h2
          · exact setup_touches_final relp filep f hf e h1
          · exact loopEvents_touches_final core getDoc f hf _ e h2
        · exact finish_touches_final _ f hf e h3
      exact ⟨Or.inl (huntouch gen_filename (Or.inl rfl)),
        Or.inl (huntouch instance_filename (Or.inr (Or.inl rfl))),
        Or.inl (huntouch decl_filename (Or.inr (Or.inr rfl)))⟩
    · rw [applyTrace_append]
      obtain ⟨s1, s2, s3, s4⟩ := applyTrace_setup relp filep fs
      obtain ⟨l1, l2, l3, l4⟩ :=
        applyTrace_loop core getDoc (sortRecords D)
          (applyTrace fs (callTraceSetup relp filep))
          (decl_banner filep) (gen_banner relp) (instance_banner relp) s3 s1 s2
      obtain ⟨f1, f2⟩ :=
        applyTrace_finish
          ("DEF HAVE_PLOT_SVG = " ++ pyBool (plotFlag (sortRecords D)))
          (applyTrace (applyTrace fs (callTraceSetup relp filep))
            (loopEvents core getDoc (sortRecords D)))
          _ l3
      have hWsplit :
          applyTrace fs (callTraceSetup relp filep
              ++ loopEvents core getDoc (sortRecords D)
              ++ callTraceFinish
                  ("DEF HAVE_PLOT_SVG = " ++ pyBool (plotFlag (sortRecords D))))
            = applyTrace
                (applyTrace (applyTrace fs (callTraceSetup relp filep))
                  (loopEvents core getDoc (sortRecords D)))
                (callTraceFinish
                  ("DEF HAVE_PLOT_SVG = " ++ pyBool (plotFlag (sortRecords D)))) := by
        rw [applyTrace_append, applyTrace_append]
      have hWg : applyTrace fs (callTraceSetup relp filep
            ++ loopEvents core getDoc (sortRecords D)
            ++ callTraceFinish
                ("DEF HAVE_PLOT_SVG = " ++ pyBool (plotFlag (sortRecords D))))
            (gen_filename ++ ".tmp")
          = some (generatorCall relp filep core getDoc D).genFile := by
        rw [hWsplit, f2 (gen_filename ++ ".tmp") (by decide), l2]
        rfl
      have hWd : applyTrace fs (callTraceSetup relp filep
            ++ loopEvents core getDoc (sortRecords D)
            ++ callTraceFinish
                ("DEF HAVE_PLOT_SVG = " ++ pyBool (plotFlag (sortRecords D))))
            (decl_filename ++ ".tmp")
          = some (generatorCall relp filep core getDoc D).declFile := by
        rw [hWsplit, f2 (decl_filename ++ ".tmp") (by decide), l1]
        rfl
      have hWi : applyTrace fs (callTraceSetup relp filep
            ++ loopEvents core getDoc (sortRecords D)
            ++ callTraceFinish
                ("DEF HAVE_PLOT_SVG = " ++ pyBool (plotFlag (sortRecords D))))
            (instance_filename ++ ".tmp")
          = some (generatorCall relp filep core getDoc D).instanceFile := by
        rw [hWsplit, f1]
        rw [show (instance_banner relp
            ++ (processAll core getDoc (sortRecords D)).2.2)
            ++ ("DEF HAVE_PLOT_SVG = " ++ pyBool (plotFlag (sortRecords D)))
          = instance_banner relp
            ++ (processAll core getDoc (sortRecords D)).2.2
            ++ "DEF HAVE_PLOT_SVG = " ++ pyBool (plotFlag (sortRecords D)) from by
          simp [str_assoc]]
        rfl
      have hWfin : ∀ f,
          f = gen_filename ∨ f = instance_filename ∨ f = decl_filename →
          applyTrace fs (callTraceSetup relp filep
              ++ loopEvents core getDoc (sortRecords D)
              ++ callTraceFinish
                  ("DEF HAVE_PLOT_SVG = " ++ pyBool (plotFlag (sortRecords D)))) f
            = fs f := by
        intro f hf
        have hfg : ¬ f = gen_filename ++ ".tmp" := by
          rcases hf with rfl | rfl | rfl <;> decide
        have hfi : ¬ f = instance_filename ++ ".tmp" := by
          rcases hf with rfl | rfl | rfl <;> decide
        have hfd : ¬ f = decl_filename ++ ".tmp" := by
          rcases hf with rfl | rfl | rfl <;> decide
        rw [hWsplit, f2 f hfi, l4 f hfd hfg hfi, s4 f hfg hfi hfd]
      exact renames_prefix_safety _ fs
        (generatorCall relp filep core getDoc D).genFile
        (generatorCall relp filep core getDoc D).instanceFile
        (generatorCall relp filep core getDoc D).declFile
        hWg hWi hWd
        (hWfin gen_filename (Or.inl rfl))
        (hWfin instance_filename (Or.inr (Or.inl rfl)))
        (hWfin decl_filename (Or.inr (Or.inr rfl)))
        q hq

/-- Claim C6, witness: the empty prefix of a run's trace on an empty catalog
leaves every final artifact untouched. -/
theorem claim_C6_witness :
    (([] : List FileEvent)
      <+: callTrace "autogen/generator.py" "autogen/generator.py" failCore
            emptyDoc []) ∧
    ((applyTrace (fun _ => none) [] gen_filename
        = (fun _ => (none : Option String)) gen_filename
      ∨ applyTrace (fun _ => none) [] gen_filename
        = some (generatorCall "autogen/generator.py" "autogen/generator.py"
            failCore emptyDoc []).genFile) ∧
     (applyTrace (fun _ => none) [] instance_filename
        = (fun _ => (none : Option String)) instance_filename
      ∨ applyTrace (fun _ => none) [] instance_filename
        = some (generatorCall "autogen/generator.py" "autogen/generator.py"
            failCore emptyDoc []).instanceFile) ∧
     (applyTrace (fun _ => none) [] decl_filename
        = (fun _ => (none : Option String)) decl_filename
      ∨ applyTrace (fun _ => none) [] decl_filename
        = some (generatorCall "autogen/generator.py" "autogen/generator.py"
            failCore emptyDoc []).declFile)) :=
  ⟨List.nil_prefix,
    (claim_C6 "autogen/generator.py" "autogen/generator.py" failCore emptyDoc
      []).2.2 [] List.nil_prefix (fun _ => none)⟩
